import Mathlib

/-!
Verification of the gemini-cli repository core: the tool registry and
dispatcher (`src/utils/tools.js`), the streaming response decoder and the
conversation orchestrator (`src/unnamed/part_000`, function `callGeminiAPI`),
and the startup health check (`startCLI`).

Strings are modelled as Lean `String`s; the character-level operations that
JavaScript performs (`includes`, `split`, `trim`, `replace`, `startsWith`,
`slice`) are embedded as executable functions on `List Char`.
-/

namespace GeminiCli

/-- Does `l` begin with `p`?  Models JS `String.prototype.startsWith`. -/
def listStartsWith : List Char → List Char → Bool
  | _, [] => true
  | [], _ :: _ => false
  | a :: as, b :: bs => a == b && listStartsWith as bs

/-- Leftmost split of `s` at pattern `pat`: returns `some (pre, post)` with
`s = pre ++ pat ++ post` and `pre` shortest, or `none` when `pat` does not
occur in `s`.  This is the search underlying both JS `includes` and the
first-occurrence behaviour of JS `String.prototype.replace`. -/
def findFirstSplit : List Char → List Char → Option (List Char × List Char)
  | s, pat =>
    if listStartsWith s pat then some ([], s.drop pat.length)
    else
      match s with
      | [] => none
      | c :: rest =>
        (findFirstSplit rest pat).map (fun pq => (c :: pq.1, pq.2))

/-- Substring containment: models JS `String.prototype.includes`. -/
def strIncludes (s pat : List Char) : Bool :=
  (findFirstSplit s pat).isSome

/-- Whitespace as trimmed by JS `String.prototype.trim` (restricted to the
ASCII whitespace actually occurring in the streamed frames). -/
def isJsSpace (c : Char) : Bool :=
  c == ' ' || c == '\n' || c == '\t' || c == '\r'

/-- Models JS `String.prototype.trim`. -/
def jsTrim (s : List Char) : List Char :=
  ((s.dropWhile isJsSpace).reverse.dropWhile isJsSpace).reverse

/-- Expansion of dollar replacement patterns performed by JS
`String.prototype.replace` on the replacement string: `$$` produces `$`,
a dollar followed by an ampersand produces the matched text, a dollar
followed by a backtick produces the text before the match, a dollar followed
by a single quote produces the text after the match, and any other dollar is
literal.  `matched` is the matched pattern, `pre`/`post` the text around it. -/
def expandReplacement (matched pre post : List Char) : List Char → List Char
  | [] => []
  | [c] => [c]
  | c :: d :: rest =>
    if c = '$' then
      if d = '$' then '$' :: expandReplacement matched pre post rest
      else if d = '&' then matched ++ expandReplacement matched pre post rest
      else if d = Char.ofNat 96 then pre ++ expandReplacement matched pre post rest
      else if d = Char.ofNat 39 then post ++ expandReplacement matched pre post rest
      else '$' :: expandReplacement matched pre post (d :: rest)
    else c :: expandReplacement matched pre post (d :: rest)

/-- Models JS `content.replace(old, new)` with a string pattern: the first
occurrence of `old` is replaced, the replacement string being subject to
dollar-pattern expansion; with no occurrence the content is returned
unchanged. -/
def jsReplaceFirst (content old new : List Char) : List Char :=
  match findFirstSplit content old with
  | some pq => pq.1 ++ expandReplacement old pq.1 pq.2 new ++ pq.2
  | none => content

/-- Models JS `String.prototype.split` on the separator `"\n"`. -/
def splitOnNl : List Char → List (List Char)
  | [] => [[]]
  | c :: rest =>
    if c = '\n' then [] :: splitOnNl rest
    else
      match splitOnNl rest with
      | [] => [[c]]
      | p :: ps => (c :: p) :: ps

/-- Models JS `String.prototype.split` on the separator `"\n\n"`
(the frame separator used by the streaming decoder). -/
def splitOnBlank : List Char → List (List Char)
  | [] => [[]]
  | [c] => [[c]]
  | c :: d :: rest =>
    if c = '\n' ∧ d = '\n' then [] :: splitOnBlank rest
    else
      match splitOnBlank (d :: rest) with
      | [] => [[c]]
      | p :: ps => (c :: p) :: ps

/-- Join a list of lines with newline separators: models JS `Array.join('\n')`. -/
def joinNl : List (List Char) → List Char
  | [] => []
  | [l] => l
  | l :: ls => l ++ '\n' :: joinNl ls

/-- Models JS `String.prototype.padStart(6)` applied to a line number. -/
def padStart6 (s : List Char) : List Char :=
  List.replicate (6 - s.length) ' ' ++ s

/-- Truncation of `old_string` used in the `edit_file` error message:
`old_string.substring(0, 50) + (old_string.length > 50 ? '...' : '')`. -/
def truncate50 (s : List Char) : List Char :=
  s.take 50 ++ (if 50 < s.length then "...".data else [])

/-- Line numbering of `read_file`: element `i` of `lines` becomes
`(i + offset + 1).toString().padStart(6) + "  " + line` (tools.js
lines 184-186); here the running first argument plays the role of
`i + offset`. -/
def numberLines (offset : Nat) : List (List Char) → List (List Char)
  | [] => []
  | l :: ls =>
    (padStart6 (Nat.repr (offset + 1)).data ++ "  ".data ++ l) ::
      numberLines (offset + 1) ls

/-! ## Data model -/

/-- The filesystem visible to the file tools, as a finite map from resolved
paths to file contents.  `path.resolve` is modelled as the identity: keys are
the already-resolved paths. -/
abbrev Fs : Type := List (String × String)

/-- Content of the file at path `p`, or `none` when no such file exists
(models `fs.existsSync` + `readFileAsync`). -/
def lookupFs : Fs → String → Option String
  | [], _ => none
  | (q, c) :: rest, p => if q = p then some c else lookupFs rest p

/-- Overwrite (or create) the file at path `p` with content `c`
(models `writeFileAsync`). -/
def writeFs : Fs → String → String → Fs
  | [], p, c => [(p, c)]
  | (q, d) :: rest, p, c =>
    if q = p then (p, c) :: rest else (q, d) :: writeFs rest p c

/-- The argument record passed to a tool implementation, one optional field
per parameter name appearing in the tool definitions of `tools.js`. -/
structure Args where
  file_path : Option String := none
  content : Option String := none
  old_string : Option String := none
  new_string : Option String := none
  offset : Option Nat := none
  limit : Option Nat := none
  directory_path : Option String := none
  pattern : Option String := none
  file_pattern : Option String := none
  command : Option String := none
  timeout : Option Nat := none
deriving DecidableEq

/-- The `arguments` field of a tool call: either an already-structured record
or a JSON-encoded string (`typeof args === 'string'`). -/
inductive RawArgs where
  | structured (r : Args)
  | str (s : String)
deriving DecidableEq

/-- A model-issued tool call, as destructured by `processToolCall` from
`toolCall.function`. -/
structure ToolCallRequest where
  name : String
  arguments : RawArgs
deriving DecidableEq

/-- Result value returned by a tool implementation: either the `{error}`
shape or one of the tool-specific success shapes of `tools.js`. -/
inductive ToolResult where
  | error (msg : String)
  | errorCmd (msg command : String)
  | readOk (content : String) (total_lines displayed_lines : Nat)
  | writeOk (message : String)
  | editOk (message : String) (replacements : Nat)
  | execOk (output command : String)
deriving DecidableEq

/-! ## Tool implementations (`src/utils/tools.js`) -/

/-- `read_file` (tools.js lines 168-196): error when the file does not exist,
otherwise the slice `[offset, offset + limit)` of the newline-split lines,
each prefixed by its 1-based line number padded to width 6 and two spaces,
plus the total and displayed line counts.  Defaults: `offset = 0`,
`limit = 2000`. -/
def read_file (file_path : String) (offset : Nat) (limit : Nat) (fs : Fs) :
    ToolResult :=
  match lookupFs fs file_path with
  | none => ToolResult.error ("File not found: " ++ file_path)
  | some content =>
    let lines := splitOnNl content.data
    let selectedLines := (lines.drop offset).take limit
    let numberedLines := joinNl (numberLines offset selectedLines)
    ToolResult.readOk (String.mk numberedLines) lines.length selectedLines.length

/-- `write_file` (tools.js lines 199-214): overwrite the file fully
(directory creation is invisible in the path-to-content map model). -/
def write_file (file_path content : String) (fs : Fs) : ToolResult × Fs :=
  (ToolResult.writeOk ("File written successfully: " ++ file_path),
   writeFs fs file_path content)

/-- `edit_file` (tools.js lines 217-246): error when the file does not exist;
error (and no write) when `old_string` does not occur in the content;
otherwise write back `content.replace(old_string, new_string)` — the first
occurrence replaced, per JS replacement semantics — and report success with
`replacements: 1`. -/
def edit_file (file_path old_string new_string : String) (fs : Fs) :
    ToolResult × Fs :=
  match lookupFs fs file_path with
  | none => (ToolResult.error ("File not found: " ++ file_path), fs)
  | some content =>
    if strIncludes content.data old_string.data then
      let newContent := jsReplaceFirst content.data old_string.data new_string.data
      (ToolResult.editOk ("File edited successfully: " ++ file_path) 1,
       writeFs fs file_path (String.mk newContent))
    else
      (ToolResult.error
        ("Text not found in file: " ++ String.mk (truncate50 old_string.data)), fs)

/-- The fixed deny-list of `execute_command` (tools.js lines 349-353). -/
def forbiddenCommands : List String :=
  ["rm -rf", "sudo", "chmod 777", "mkfs", "dd if=/dev/zero",
   ":()\x7b :|:& \x7d;:"]

/-- `execute_command` (tools.js lines 346-380), with the external shell
(`execSync`) passed in as `exec : command → stdout or failure`.  The second
component of the result is the list of commands actually handed to the
shell, so that "no subprocess was spawned" is visible as `[]`. -/
def execute_command (exec : String → Nat → Except String String)
    (command : String) (timeout : Nat) : ToolResult × List String :=
  if forbiddenCommands.any (fun forbidden => strIncludes command.data forbidden.data) then
    (ToolResult.error ("Command not allowed for security reasons: " ++ command), [])
  else
    match exec command timeout with
    | Except.ok result =>
      (ToolResult.execOk (String.mk (jsTrim result.data)) command, [command])
    | Except.error e =>
      (ToolResult.errorCmd ("Command execution failed: " ++ e) command, [command])

/-! ## Tool dispatcher (`processToolCall`, tools.js lines 386-399)

Exceptions of the host language are modelled by `Except String`: a tool
implementation (or the external `JSON.parse`) that throws is a function
returning `Except.error`.  `processToolCall` itself returns
`Except String ToolResult`: `Except.error` means the call rejects to its
caller (the async function's promise is rejected). -/

/-- The first line of `processToolCall`:
`typeof args === 'string' ? JSON.parse(args) : args`.  Note that this runs
outside the `try` block, so a parse failure becomes an `Except.error` of the
dispatcher itself. -/
def parseRawArgs (parseJson : String → Except String Args) :
    RawArgs → Except String Args
  | RawArgs.structured r => Except.ok r
  | RawArgs.str s => parseJson s

/-- `processToolCall` (tools.js lines 386-399), parameterised by the external
`JSON.parse` and by the `toolImplementations` lookup (`none` for an
unregistered name). -/
def processToolCall (parseJson : String → Except String Args)
    (impls : String → Option (Args → Except String ToolResult))
    (toolCall : ToolCallRequest) : Except String ToolResult :=
  match parseRawArgs parseJson toolCall.arguments with
  | Except.error e => Except.error e
  | Except.ok parsedArgs =>
    match impls toolCall.name with
    | some impl =>
      match impl parsedArgs with
      | Except.ok r => Except.ok r
      | Except.error e =>
        Except.ok (ToolResult.error ("Tool execution error: " ++ e))
    | none => Except.ok (ToolResult.error ("Unknown tool: " ++ toolCall.name))

/-- The six registered tool names of `toolDefinitions` / `toolImplementations`. -/
def toolNames : List String :=
  ["read_file", "write_file", "edit_file", "list_directory", "search_code",
   "execute_command"]

/-- Models the external `JSON.parse` at the dispatcher boundary, for use in
concrete instantiations: the empty-object source text parses to the empty
argument record, anything else throws (as `JSON.parse` does on malformed
input). -/
def jsonParseModel (s : String) : Except String Args :=
  if s = "\x7b\x7d" then Except.ok {}
  else Except.error ("Unexpected token in JSON: " ++ s)

/-- A concrete tool-implementation lookup for instantiating the dispatcher
theorems: the registered names are exactly `toolNames`; `read_file`,
`edit_file` and `execute_command` run their embeddings against a fixed
filesystem and a stub shell, the remaining three return their modelled
results; `edit_file` additionally rethrows nothing.  A throwing
implementation is modelled by `demoThrowingImpls` below. -/
def toolImplsDemo (fs : Fs) (name : String) :
    Option (Args → Except String ToolResult) :=
  if name = "read_file" then
    some (fun a =>
      Except.ok (read_file (a.file_path.getD "") (a.offset.getD 0)
        (a.limit.getD 2000) fs))
  else if name = "write_file" then
    some (fun a =>
      Except.ok (write_file (a.file_path.getD "") (a.content.getD "") fs).1)
  else if name = "edit_file" then
    some (fun a =>
      Except.ok (edit_file (a.file_path.getD "") (a.old_string.getD "")
        (a.new_string.getD "") fs).1)
  else if name = "list_directory" then
    some (fun _ => Except.ok (ToolResult.error "Directory not found: "))
  else if name = "search_code" then
    some (fun _ => Except.ok (ToolResult.error "Path not found: "))
  else if name = "execute_command" then
    some (fun a =>
      Except.ok (execute_command (fun _ _ => Except.ok "") (a.command.getD "")
        (a.timeout.getD 60000)).1)
  else none

/-- An implementation lookup whose single entry always throws; stands for an
implementation raising before or inside its body (e.g. the `TypeError`
raised when destructuring a `null` argument record). -/
def demoThrowingImpls (name : String) :
    Option (Args → Except String ToolResult) :=
  if name = "read_file" then
    some (fun _ => Except.error "TypeError: cannot destructure")
  else none

/-! ## Streaming response decoder (`callGeminiAPI`, part_000 lines 119-156)

The streaming branch reads chunks from the response body; **each chunk is
split on `"\n\n"` independently** (there is no carry-over buffer between
reads).  Every piece starting with `data:` is stripped of the tag, trimmed,
compared against the `[DONE]` sentinel (which is skipped with `continue`),
and otherwise fed to `JSON.parse`; when the parse succeeds and
`choices[0].delta.content` is truthy, that content is emitted and appended
to the accumulator; otherwise the piece is silently dropped. -/

/-- The JSON object prefix of a well-formed delta frame. -/
def deltaPre : List Char :=
  "\x7b\"choices\":[\x7b\"delta\":\x7b\"content\":\"".data

/-- The JSON object suffix of a well-formed delta frame. -/
def deltaPost : List Char :=
  "\"\x7d\x7d]\x7d".data

/-- Characters allowed in the content payload of the modelled frames: for
such payloads the JSON encoding of a string is the identity, so the frame
parse below coincides with `JSON.parse` + `choices[0].delta.content`. -/
def isPlainChar (c : Char) : Bool :=
  c ≠ '"' && c ≠ '\\' && c ≠ '\n'

/-- Models `JSON.parse(data)` followed by the access
`parsed.choices && parsed.choices[0].delta.content`, restricted to frames
of the exact shape `deltaPre ++ body ++ deltaPost` with an escape-free
`body`: returns the content string on success, `none` when the text fails
to parse as JSON of that shape (in particular on every strict prefix of a
well-formed frame, as produced by a frame split across two reads). -/
def extractDelta (data : List Char) : Option (List Char) :=
  if listStartsWith data deltaPre then
    let rest := data.drop deltaPre.length
    let body := rest.take (rest.length - deltaPost.length)
    if deltaPost.length ≤ rest.length ∧
        rest.drop (rest.length - deltaPost.length) = deltaPost ∧
        body.all isPlainChar then
      some body
    else none
  else none

/-- The loop body applied to one piece of a chunk split on `"\n\n"`
(part_000 lines 132-151): pieces not starting with `data:` are skipped, the
tag is stripped (`slice(5)`) and the rest trimmed, the `[DONE]` sentinel is
skipped, and a parsed frame contributes its content exactly when that
content is truthy (a non-empty string). -/
def lineStep (line : List Char) : Option (List Char) :=
  if listStartsWith line "data:".data then
    let data := jsTrim (line.drop 5)
    if data = "[DONE]".data then none
    else
      match extractDelta data with
      | some content => if content = [] then none else some content
      | none => none
  else none

/-- Emissions produced while processing a single read chunk. -/
def decodeChunk (chunk : List Char) : List (List Char) :=
  (splitOnBlank chunk).filterMap lineStep

/-- Emissions produced by the whole read loop on a given partition of the
stream into chunks; the accumulated `fullContent` is their concatenation. -/
def decodeChunks (chunks : List (List Char)) : List (List Char) :=
  (chunks.map decodeChunk).flatten

/-- The accumulated string returned by the streaming branch. -/
def fullContent (chunks : List (List Char)) : List Char :=
  (decodeChunks chunks).flatten

/-- A well-formed delta frame rendered on the wire:
`"data: " ++ payload ++ "\n\n"`. -/
def renderFrame (payload : List Char) : List Char :=
  "data: ".data ++ payload ++ ['\n', '\n']

/-- A sequence of frames rendered as one contiguous byte stream. -/
def renderFrames (payloads : List (List Char)) : List Char :=
  (payloads.map renderFrame).flatten

/-- A payload is wire-well-formed when it contains no newline (frames are
one-line) and carries no surrounding whitespace (so `trim` after the tag
recovers it exactly). -/
def wfPayload (payload : List Char) : Prop :=
  '\n' ∉ payload ∧ jsTrim payload = payload

instance (payload : List Char) : Decidable (wfPayload payload) := by
  unfold wfPayload
  infer_instance

/-- What one well-formed frame contributes after the tag strip and trim. -/
def payloadStep (payload : List Char) : Option (List Char) :=
  if payload = "[DONE]".data then none
  else
    match extractDelta payload with
    | some content => if content = [] then none else some content
    | none => none

/-! ## Conversation orchestrator (`callGeminiAPI` non-streaming branch,
part_000 lines 157-207, and the session loop of `startCLI`, lines 267-298) -/

/-- One message of the conversation history. -/
inductive Message where
  | user (content : String)
  | assistant (content : Option String) (function_call : Option String)
  | function (name : String) (content : String)
deriving DecidableEq

/-- A non-streaming response body, as inspected by the orchestrator:
either a plain text message or one carrying a `function_call`. -/
inductive Response where
  | text (content : String)
  | toolCall (content : Option String) (name : String) (arguments : RawArgs)
deriving DecidableEq

/-- Outcome of one `fetch` of the completions endpoint: a transport failure
(fetch rejection or non-2xx status, both of which throw) or a reply. -/
inductive RemoteOutcome where
  | failure
  | reply (r : Response)
deriving DecidableEq

/-- Models `JSON.stringify(toolResult)` at the interface; the exact rendering
is never inspected by the orchestrator. -/
def serializeToolResult : ToolResult → String
  | ToolResult.error msg => "\x7b\"error\":" ++ msg ++ "\x7d"
  | ToolResult.errorCmd msg command =>
    "\x7b\"error\":" ++ msg ++ ",\"command\":" ++ command ++ "\x7d"
  | ToolResult.readOk content total displayed =>
    "\x7b\"content\":" ++ content ++ ",\"total_lines\":" ++ Nat.repr total ++
      ",\"displayed_lines\":" ++ Nat.repr displayed ++ "\x7d"
  | ToolResult.writeOk message => "\x7b\"success\":true,\"message\":" ++ message ++ "\x7d"
  | ToolResult.editOk message replacements =>
    "\x7b\"success\":true,\"message\":" ++ message ++ ",\"replacements\":" ++
      Nat.repr replacements ++ "\x7d"
  | ToolResult.execOk output command =>
    "\x7b\"output\":" ++ output ++ ",\"command\":" ++ command ++ "\x7d"

/-- The recursive non-streaming turn of `callGeminiAPI`, driven by the script
of remote outcomes (one entry per issued remote call).  A transport failure
— and likewise a rejecting tool dispatch — is caught by the surrounding
`catch` (line 204) and makes the call return `null` (`none`); a text reply
is returned; a tool-call reply pushes the assistant message carrying the
call and then the serialized tool result onto `messages` before the next
remote call is issued with the extended history.  An exhausted script is a
stream that never answers, treated as a failure. -/
def runTurn (parseJson : String → Except String Args)
    (impls : String → Option (Args → Except String ToolResult)) :
    List RemoteOutcome → List Message → List Message × Option String
  | [], messages => (messages, none)
  | RemoteOutcome.failure :: _, messages => (messages, none)
  | RemoteOutcome.reply (Response.text content) :: _, messages =>
    (messages, some content)
  | RemoteOutcome.reply (Response.toolCall content name args) :: rest, messages =>
    match processToolCall parseJson impls ⟨name, args⟩ with
    | Except.error _ => (messages, none)
    | Except.ok toolResult =>
      runTurn parseJson impls rest
        (messages ++
          [Message.assistant content (some name),
           Message.function name (serializeToolResult toolResult)])

/-- One iteration of the interactive loop (part_000 lines 279-290): push the
user message, run the turn, and push a terminal assistant message exactly
when the turn returned text. -/
def afterTurn (parseJson : String → Except String Args)
    (impls : String → Option (Args → Except String ToolResult))
    (script : List RemoteOutcome) (history : List Message)
    (input : String) : List Message :=
  match runTurn parseJson impls script (history ++ [Message.user input]) with
  | (messages, some response) => messages ++ [Message.assistant (some response) none]
  | (messages, none) => messages

/-- The conversation histories reachable from the empty history created at
session start, by any sequence of user turns with any remote behaviour and
any dispatcher instantiation. -/
inductive Reachable : List Message → Prop
  | init : Reachable []
  | turn (history : List Message) (parseJson : String → Except String Args)
      (impls : String → Option (Args → Except String ToolResult))
      (script : List RemoteOutcome) (input : String)
      (h : Reachable history) :
      Reachable (afterTurn parseJson impls script history input)

/-- Checker for the history invariant, carrying the set of tool names already
announced by an earlier assistant tool-call message. -/
def invAux (seen : List String) : List Message → Bool
  | [] => true
  | Message.function name _ :: rest => seen.contains name && invAux seen rest
  | Message.assistant _ (some toolName) :: rest => invAux (toolName :: seen) rest
  | _ :: rest => invAux seen rest

/-- Every tool-result (`function`) message is preceded earlier in the
sequence by an assistant message whose `function_call` names the same tool. -/
def historyInvariant (messages : List Message) : Bool :=
  invAux [] messages

/-- Tool names announced by assistant messages of `messages`, newest first,
on top of `seen`. -/
def seenAfter (seen : List String) : List Message → List String
  | [] => seen
  | Message.assistant _ (some toolName) :: rest => seenAfter (toolName :: seen) rest
  | _ :: rest => seenAfter seen rest

/-! ## Startup health check (`startCLI`, part_000 lines 218-231) -/

/-- Outcome of the startup phase: the process exits with the given code, or
the interactive session starts after printing the given diagnostics. -/
inductive StartOutcome where
  | exited (code : Nat)
  | interactive (diagnostics : List String)
deriving DecidableEq

/-- The two diagnostics printed when the health probe reports
`api_initialized: false`. -/
def credentialWarnings : List String :=
  ["Warning: Gemini API not properly initialized at the proxy server.",
   "Please check that GEMINI_API_KEY is set in the .env file."]

/-- The health-check prologue of `startCLI`: `health` is the outcome of
`fetch` + `json()` on `GET /health` (`Except.error` for an unreachable proxy
or malformed body, `Except.ok b` for `{api_initialized: b}`).  A probe
failure prints errors and exits with status 1; `api_initialized: false`
prints the credential diagnostics and **continues into the interactive
session**; `true` continues silently. -/
def startupCheck (health : Except String Bool) : StartOutcome :=
  match health with
  | Except.error _ => StartOutcome.exited 1
  | Except.ok apiInitialized =>
    if apiInitialized then StartOutcome.interactive []
    else StartOutcome.interactive credentialWarnings

/-! ## Helper lemmas -/

theorem listStartsWith_append : ∀ (l m : List Char), listStartsWith (l ++ m) l = true
  | [], m => by simp [listStartsWith]
  | c :: l', m => by
    simp [listStartsWith, listStartsWith_append l' m]

theorem listStartsWith_eq (pat : List Char) : ∀ (s : List Char),
    listStartsWith s pat = true → s = pat ++ s.drop pat.length := by
  induction pat with
  | nil => intro s _; simp
  | cons b bs ih =>
    intro s h
    cases s with
    | nil => simp [listStartsWith] at h
    | cons a as =>
      simp only [listStartsWith, Bool.and_eq_true, beq_iff_eq] at h
      obtain ⟨hab, hrest⟩ := h
      have has := ih as hrest
      subst hab
      simp only [List.cons_append, List.length_cons, List.drop_succ_cons]
      exact congrArg _ has

theorem findFirstSplit_sound (pat : List Char) : ∀ (s pre post : List Char),
    findFirstSplit s pat = some (pre, post) → s = pre ++ pat ++ post := by
  intro s
  induction s with
  | nil =>
    intro pre post h
    rw [findFirstSplit] at h
    split at h
    · next hs =>
      simp only [Option.some.injEq, Prod.mk.injEq] at h
      obtain ⟨h1, h2⟩ := h
      subst h1; subst h2
      simpa using listStartsWith_eq pat [] hs
    · simp at h
  | cons c rest ih =>
    intro pre post h
    rw [findFirstSplit] at h
    split at h
    · next hs =>
      simp only [Option.some.injEq, Prod.mk.injEq] at h
      obtain ⟨h1, h2⟩ := h
      subst h1; subst h2
      simpa using listStartsWith_eq pat (c :: rest) hs
    · simp only [Option.map_eq_some'] at h
      obtain ⟨⟨pre', post'⟩, hfind, heq⟩ := h
      simp only [Prod.mk.injEq] at heq
      obtain ⟨hpre, hpost⟩ := heq
      have hr := ih pre' post' hfind
      rw [← hpre, ← hpost]
      simp [hr]

theorem jsTrim_space_cons (p : List Char) : jsTrim (' ' :: p) = jsTrim p := by
  simp [jsTrim, List.dropWhile_cons, isJsSpace]

theorem expand_noDollar (matched pre post : List Char) :
    ∀ (rep : List Char), (∀ c ∈ rep, c ≠ '$') →
      expandReplacement matched pre post rep = rep
  | [], _ => rfl
  | [c], _ => rfl
  | c :: d :: rest, h => by
    have hc : ¬c = '$' := h c (by simp)
    rw [expandReplacement, if_neg hc]
    exact congrArg _ (expand_noDollar matched pre post (d :: rest)
      (fun x hx => h x (List.mem_cons_of_mem c hx)))

theorem splitOnBlank_nlnl (rest : List Char) :
    splitOnBlank ('\n' :: '\n' :: rest) = [] :: splitOnBlank rest := by
  simp [splitOnBlank]

theorem splitOnBlank_append : ∀ (l rest : List Char), '\n' ∉ l →
    splitOnBlank (l ++ '\n' :: '\n' :: rest) = l :: splitOnBlank rest
  | [], rest, _ => splitOnBlank_nlnl rest
  | [c], rest, h => by
    have hc : ¬c = '\n' := by
      intro he; exact h (by simp [he])
    rw [List.cons_append, List.nil_append, splitOnBlank, if_neg (by simp [hc]),
      splitOnBlank_nlnl]
  | c :: c' :: l', rest, h => by
    have hc : ¬c = '\n' := by
      intro he; exact h (by simp [he])
    have ih := splitOnBlank_append (c' :: l') rest (by
      intro hm; exact h (List.mem_cons_of_mem c hm))
    simp only [List.cons_append] at ih ⊢
    rw [splitOnBlank, if_neg (by simp [hc]), ih]

theorem lineStep_nil : lineStep [] = none := rfl

theorem lineStep_render (p : List Char) (h : wfPayload p) :
    lineStep ("data: ".data ++ p) = payloadStep p := by
  have h1 : listStartsWith ("data: ".data ++ p) "data:".data = true := by
    have he : "data: ".data ++ p = "data:".data ++ (' ' :: p) := rfl
    rw [he]
    exact listStartsWith_append _ _
  have h2 : List.drop 5 ("data: ".data ++ p) = ' ' :: p := rfl
  rw [lineStep, if_pos h1, h2, jsTrim_space_cons, h.2]
  rfl

theorem renderFrames_cons (p : List Char) (ps : List (List Char)) :
    renderFrames (p :: ps) =
      ("data: ".data ++ p) ++ '\n' :: '\n' :: renderFrames ps := by
  simp [renderFrames, renderFrame, List.append_assoc]

theorem decodeChunk_renderFrames : ∀ (ps : List (List Char)),
    (∀ p ∈ ps, wfPayload p) →
    decodeChunk (renderFrames ps) = ps.filterMap payloadStep := by
  intro ps
  induction ps with
  | nil => intro _; rfl
  | cons p ps ih =>
    intro h
    have hp : wfPayload p := h p (by simp)
    have hnl : '\n' ∉ "data: ".data ++ p := by
      simp only [List.mem_append]
      rintro (hd | hd)
      · simp at hd
      · exact hp.1 hd
    rw [renderFrames_cons, decodeChunk,
      splitOnBlank_append ("data: ".data ++ p) (renderFrames ps) hnl,
      List.filterMap_cons, lineStep_render p hp, List.filterMap_cons]
    have ht : (splitOnBlank (renderFrames ps)).filterMap lineStep =
        ps.filterMap payloadStep := ih (fun q hq => h q (List.mem_cons_of_mem p hq))
    cases payloadStep p with
    | none => exact ht
    | some content => rw [ht]

theorem numberLines_length : ∀ (offset : Nat) (ls : List (List Char)),
    (numberLines offset ls).length = ls.length
  | _, [] => rfl
  | offset, _ :: ls => by
    simp [numberLines, numberLines_length (offset + 1) ls]

theorem numberLines_getElem? : ∀ (ls : List (List Char)) (offset i : Nat),
    (numberLines offset ls)[i]? =
      (ls[i]?).map
        (fun line => padStart6 (Nat.repr (offset + i + 1)).data ++ "  ".data ++ line) := by
  intro ls
  induction ls with
  | nil => intro offset i; simp [numberLines]
  | cons l ls ih =>
    intro offset i
    cases i with
    | zero => simp [numberLines]
    | succ j =>
      simp only [numberLines, List.getElem?_cons_succ, ih (offset + 1) j]
      have : offset + 1 + j + 1 = offset + (j + 1) + 1 := by omega
      rw [this]

theorem invAux_append : ∀ (xs ys : List Message) (seen : List String),
    invAux seen (xs ++ ys) = (invAux seen xs && invAux (seenAfter seen xs) ys)
  | [], ys, seen => by simp [invAux, seenAfter]
  | Message.user c :: xs, ys, seen => by
    simp [invAux, seenAfter, invAux_append xs ys seen]
  | Message.assistant c none :: xs, ys, seen => by
    simp [invAux, seenAfter, invAux_append xs ys seen]
  | Message.assistant c (some toolName) :: xs, ys, seen => by
    simp [invAux, seenAfter, invAux_append xs ys (toolName :: seen)]
  | Message.function name c :: xs, ys, seen => by
    simp [invAux, seenAfter, invAux_append xs ys seen, Bool.and_assoc]

theorem runTurn_fst_invAux
    (parseJson : String → Except String Args)
    (impls : String → Option (Args → Except String ToolResult)) :
    ∀ (script : List RemoteOutcome) (messages : List Message) (seen : List String),
      invAux seen messages = true →
      invAux seen (runTurn parseJson impls script messages).1 = true
  | [], _, _, h => h
  | RemoteOutcome.failure :: _, _, _, h => h
  | RemoteOutcome.reply (Response.text _) :: _, _, _, h => h
  | RemoteOutcome.reply (Response.toolCall content name args) :: rest, messages, seen, h => by
    rw [runTurn]
    cases hp : processToolCall parseJson impls ⟨name, args⟩ with
    | error e => exact h
    | ok toolResult =>
      refine runTurn_fst_invAux parseJson impls rest _ seen ?_
      rw [invAux_append, h, Bool.true_and]
      simp [invAux, List.contains_cons]

theorem reachable_invariant : ∀ (messages : List Message), Reachable messages →
    historyInvariant messages = true := by
  intro messages h
  induction h with
  | init => rfl
  | turn history parseJson impls script input _ ih =>
    have h1 : invAux [] (history ++ [Message.user input]) = true := by
      rw [invAux_append, historyInvariant] at *
      rw [ih, Bool.true_and]
      rfl
    have h2 : invAux [] (runTurn parseJson impls script
        (history ++ [Message.user input])).1 = true :=
      runTurn_fst_invAux parseJson impls script _ [] h1
    rw [historyInvariant, afterTurn]
    cases hr : runTurn parseJson impls script (history ++ [Message.user input]) with
    | mk msgs response =>
      rw [hr] at h2
      cases response with
      | none => exact h2
      | some content =>
        simp only
        rw [invAux_append, h2, Bool.true_and]
        rfl

/-! ## Claim theorems -/

/-- C1: for every command string containing any entry of the fixed deny-list
as a substring, `execute_command` returns the structured `{error}` result
naming the offending command, and never spawns a subprocess (the spawn log
is empty): the check is literal substring containment against the fixed
list, performed before any execution. -/
theorem C1_execute_command_denylist :
    ∀ (exec : String → Nat → Except String String) (command : String)
      (timeout : Nat) (forbidden : String),
      forbidden ∈ forbiddenCommands →
      strIncludes command.data forbidden.data = true →
      execute_command exec command timeout =
        (ToolResult.error ("Command not allowed for security reasons: " ++ command),
         []) := by
  intro exec command timeout forbidden hmem hsub
  have hany : forbiddenCommands.any
      (fun forbidden => strIncludes command.data forbidden.data) = true :=
    List.any_eq_true.mpr ⟨forbidden, hmem, hsub⟩
  rw [execute_command, if_pos hany]

/-- C1 witness: `"rm -rf /"` contains the deny-list entry `"rm -rf"` and is
rejected without the stub shell being invoked. -/
theorem C1_execute_command_denylist_witness :
    execute_command (fun _ _ => Except.ok "") "rm -rf /" 60000 =
      (ToolResult.error "Command not allowed for security reasons: rm -rf /",
       []) :=
  C1_execute_command_denylist (fun _ _ => Except.ok "") "rm -rf /" 60000
    "rm -rf" (by decide) (by decide)

/-- C5: for every existing file whose content does not contain `old_string`,
`edit_file` returns an `{error}` result and performs no write: the whole
filesystem after the call is the one before the call. -/
theorem C5_edit_file_absent_no_write :
    ∀ (fs : Fs) (file_path old_string new_string content : String),
      lookupFs fs file_path = some content →
      strIncludes content.data old_string.data = false →
      edit_file file_path old_string new_string fs =
        (ToolResult.error
          ("Text not found in file: " ++ String.mk (truncate50 old_string.data)),
         fs) := by
  intro fs file_path old_string new_string content h1 h2
  simp [edit_file, h1, h2]

/-- C5 witness: editing `"abca"` with absent `old_string` `"zz"` errors and
leaves the filesystem unchanged. -/
theorem C5_edit_file_absent_no_write_witness :
    edit_file "a.txt" "zz" "XY" [("a.txt", "abca")] =
      (ToolResult.error "Text not found in file: zz", [("a.txt", "abca")]) :=
  (C5_edit_file_absent_no_write [("a.txt", "abca")] "a.txt" "zz" "XY" "abca"
    (by decide) (by decide)).trans (by decide)

/-- C6 counterexample: the replacement is NOT always the literal
`new_string`: JS `String.replace` expands dollar patterns in the
replacement, so editing `"ab"` replacing `"a"` by `"$$"` writes `"$b"`,
not the literal-replacement result `"$$b"`. -/
theorem C6_counterexample :
    lookupFs (edit_file "a.txt" "a" "$$" [("a.txt", "ab")]).2 "a.txt" =
        some "$b" ∧
      ("$b" : String) ≠ "$$b" := by decide

/-- C6 (amended): for every existing file containing `old_string`,
`edit_file` writes back the content with exactly the first (leftmost)
occurrence of `old_string` replaced by `new_string` subjected to JS
dollar-pattern expansion, leaving the rest (in particular all later
occurrences) intact, and reports success with `replacements: 1`; whenever
`new_string` contains no dollar character the replacement is literal. -/
theorem C6_edit_file_replaces_first :
    ∀ (fs : Fs) (file_path old_string new_string content : String)
      (pre post : List Char),
      lookupFs fs file_path = some content →
      findFirstSplit content.data old_string.data = some (pre, post) →
      content.data = pre ++ old_string.data ++ post ∧
      edit_file file_path old_string new_string fs =
        (ToolResult.editOk ("File edited successfully: " ++ file_path) 1,
         writeFs fs file_path
           (String.mk
             (pre ++ expandReplacement old_string.data pre post new_string.data
               ++ post))) ∧
      ((∀ c ∈ new_string.data, c ≠ '$') →
        expandReplacement old_string.data pre post new_string.data =
          new_string.data) := by
  intro fs file_path old_string new_string content pre post h1 h2
  refine ⟨findFirstSplit_sound old_string.data content.data pre post h2, ?_, ?_⟩
  · simp [edit_file, h1, strIncludes, jsReplaceFirst, h2]
  · exact expand_noDollar old_string.data pre post new_string.data

/-- C6 witness: editing `"abca"` replacing the first `"a"` by `"Y"`
yields `"Ybca"`: the later occurrence of `"a"` is intact. -/
theorem C6_edit_file_replaces_first_witness :
    edit_file "a.txt" "a" "Y" [("a.txt", "abca")] =
      (ToolResult.editOk "File edited successfully: a.txt" 1,
       [("a.txt", "Ybca")]) :=
  ((C6_edit_file_replaces_first [("a.txt", "abca")] "a.txt" "a" "Y" "abca"
    [] "bca".data (by decide) (by decide)).2.1).trans (by decide)

/-- C7: for every existing file and every offset `o` and limit `l`,
`read_file` succeeds with `total_lines` the file's newline-split line count,
`displayed_lines = min l (total - o)`, the returned text consisting of that
many numbered lines, the `i`-th being line `o + i` of the file carrying line
number `o + i + 1` (so numbering starts at `o + 1`); a missing file yields an
`{error}` result. -/
theorem C7_read_file_slice :
    ∀ (fs : Fs) (file_path : String) (offset limit : Nat),
      (lookupFs fs file_path = none →
        read_file file_path offset limit fs =
          ToolResult.error ("File not found: " ++ file_path)) ∧
      (∀ content, lookupFs fs file_path = some content →
        read_file file_path offset limit fs =
          ToolResult.readOk
            (String.mk (joinNl (numberLines offset
              (((splitOnNl content.data).drop offset).take limit))))
            (splitOnNl content.data).length
            (min limit ((splitOnNl content.data).length - offset)) ∧
        (numberLines offset
            (((splitOnNl content.data).drop offset).take limit)).length =
          min limit ((splitOnNl content.data).length - offset) ∧
        (∀ i, (numberLines offset
            (((splitOnNl content.data).drop offset).take limit))[i]? =
          ((((splitOnNl content.data).drop offset).take limit)[i]?).map
            (fun line =>
              padStart6 (Nat.repr (offset + i + 1)).data ++ "  ".data ++ line))) := by
  intro fs file_path offset limit
  constructor
  · intro h
    simp [read_file, h]
  · intro content h
    have hlen : (((splitOnNl content.data).drop offset).take limit).length =
        min limit ((splitOnNl content.data).length - offset) := by
      rw [List.length_take, List.length_drop]
    refine ⟨?_, ?_, ?_⟩
    · simp only [read_file, h]
      rw [hlen]
    · rw [numberLines_length, hlen]
    · intro i
      exact numberLines_getElem? _ offset i

/-- C7 witness: the spec's example — a 10-line file read with `offset = 3`,
`limit = 2` returns the two lines 4 and 5, numbered `4` and `5`, with
`total_lines = 10` and `displayed_lines = min 2 (10 - 3) = 2`. -/
theorem C7_read_file_slice_witness :
    read_file "f" 3 2 [("f", "l1\nl2\nl3\nl4\nl5\nl6\nl7\nl8\nl9\nl10")] =
      ToolResult.readOk "     4  l4\n     5  l5" 10 (min 2 (10 - 3)) :=
  ((C7_read_file_slice [("f", "l1\nl2\nl3\nl4\nl5\nl6\nl7\nl8\nl9\nl10")]
      "f" 3 2).2 "l1\nl2\nl3\nl4\nl5\nl6\nl7\nl8\nl9\nl10" (by decide)).1.trans
    (by decide)

/-- C2 counterexample: the dispatcher does NOT always return a ToolResult:
the `JSON.parse` of a string argument runs before the `try` block, so on a
string that fails to parse, `processToolCall` rejects to its caller
(`Except.error` models the rejected promise) instead of returning an
`{error}` result. -/
theorem C2_counterexample :
    processToolCall jsonParseModel (toolImplsDemo [])
        ⟨"read_file", RawArgs.str "not json"⟩ =
      Except.error "Unexpected token in JSON: not json" := by rfl

/-- C2 (amended): `processToolCall` returns a ToolResult except in exactly
one case — a string `rawArguments` whose `JSON.parse` throws, in which case
that exception propagates to the caller.  After a successful parse it never
raises: an unregistered name yields `{error: "Unknown tool: <name>"}`, an
exception of the looked-up implementation is caught and converted to
`{error: "Tool execution error: ..."}`, and a returned result is passed
through. -/
theorem C2_dispatcher_spec :
    (∀ (parseJson : String → Except String Args)
       (impls : String → Option (Args → Except String ToolResult))
       (name s e : String),
      parseJson s = Except.error e →
      processToolCall parseJson impls ⟨name, RawArgs.str s⟩ = Except.error e) ∧
    (∀ (parseJson : String → Except String Args)
       (impls : String → Option (Args → Except String ToolResult))
       (name : String) (args : RawArgs) (r : Args),
      parseRawArgs parseJson args = Except.ok r →
      (impls name = none →
        processToolCall parseJson impls ⟨name, args⟩ =
          Except.ok (ToolResult.error ("Unknown tool: " ++ name))) ∧
      (∀ impl, impls name = some impl →
        (∀ e, impl r = Except.error e →
          processToolCall parseJson impls ⟨name, args⟩ =
            Except.ok (ToolResult.error ("Tool execution error: " ++ e))) ∧
        (∀ res, impl r = Except.ok res →
          processToolCall parseJson impls ⟨name, args⟩ = Except.ok res)) ∧
      (∃ res, processToolCall parseJson impls ⟨name, args⟩ = Except.ok res)) := by
  constructor
  · intro parseJson impls name s e h
    simp [processToolCall, parseRawArgs, h]
  · intro parseJson impls name args r hp
    refine ⟨?_, ?_, ?_⟩
    · intro h0
      simp [processToolCall, hp, h0]
    · intro impl hi
      constructor
      · intro e he
        simp [processToolCall, hp, hi, he]
      · intro res hres
        simp [processToolCall, hp, hi, hres]
    · cases hi : impls name with
      | none =>
        exact ⟨ToolResult.error ("Unknown tool: " ++ name),
          by simp [processToolCall, hp, hi]⟩
      | some impl =>
        cases hr : impl r with
        | error e =>
          exact ⟨ToolResult.error ("Tool execution error: " ++ e),
            by simp [processToolCall, hp, hi, hr]⟩
        | ok res => exact ⟨res, by simp [processToolCall, hp, hi, hr]⟩

/-- C2 witness: the three amended behaviours at concrete inputs — a string
argument failing `JSON.parse` propagates the exception; an unregistered
name returns the Unknown-tool error; a throwing implementation is caught
and converted. -/
theorem C2_dispatcher_spec_witness :
    processToolCall jsonParseModel (toolImplsDemo [])
        ⟨"edit_file", RawArgs.str "bad"⟩ =
      Except.error "Unexpected token in JSON: bad" ∧
    processToolCall jsonParseModel (toolImplsDemo [])
        ⟨"frobnicate", RawArgs.structured {}⟩ =
      Except.ok (ToolResult.error "Unknown tool: frobnicate") ∧
    processToolCall jsonParseModel demoThrowingImpls
        ⟨"read_file", RawArgs.structured {}⟩ =
      Except.ok
        (ToolResult.error "Tool execution error: TypeError: cannot destructure") :=
  ⟨C2_dispatcher_spec.1 jsonParseModel (toolImplsDemo []) "edit_file" "bad"
      "Unexpected token in JSON: bad" (by rfl),
   (C2_dispatcher_spec.2 jsonParseModel (toolImplsDemo []) "frobnicate"
      (RawArgs.structured {}) {} (by rfl)).1 (by rfl),
   ((C2_dispatcher_spec.2 jsonParseModel demoThrowingImpls "read_file"
      (RawArgs.structured {}) {} (by rfl)).2.1
      (fun _ => Except.error "TypeError: cannot destructure") (by rfl)).1
      "TypeError: cannot destructure" (by rfl)⟩

/-- C3: the streaming decoder is NOT stable under read-chunk partitions: the
single well-formed frame `data: {"choices":[{"delta":{"content":"Hi"}}]}`
followed by a blank line, delivered whole, emits `"Hi"` and accumulates
`"Hi"`; the same bytes delivered as two read chunks split inside the frame
(the loop splits each chunk on the separator independently, with no
carry-over buffer) emit nothing and accumulate the empty string. -/
theorem C3_split_frame_dropped :
    ("data: ".data ++ deltaPre ++ "Hi".data) ++ (deltaPost ++ ['\n', '\n']) =
        renderFrames [deltaPre ++ "Hi".data ++ deltaPost] ∧
      decodeChunks [renderFrames [deltaPre ++ "Hi".data ++ deltaPost]] =
        ["Hi".data] ∧
      decodeChunks ["data: ".data ++ deltaPre ++ "Hi".data,
        deltaPost ++ ['\n', '\n']] = [] ∧
      fullContent [renderFrames [deltaPre ++ "Hi".data ++ deltaPost]] =
        "Hi".data ∧
      fullContent ["data: ".data ++ deltaPre ++ "Hi".data,
        deltaPost ++ ['\n', '\n']] = [] := by decide

/-- C4 counterexample: a non-streaming tool-call response whose string
arguments fail `JSON.parse` makes the dispatch reject; the surrounding
catch aborts the turn and NO assistant or tool-result message is appended
(the history is unchanged), so a tool-call response does not always append
the two messages. -/
theorem C4_counterexample :
    runTurn jsonParseModel (toolImplsDemo [])
        [RemoteOutcome.reply
          (Response.toolCall none "read_file" (RawArgs.str "not json"))] [] =
      ([], none) := by rfl

/-- C4 (amended): whenever a non-streaming response contains a tool-call
request and the dispatch returns a ToolResult (does not throw), the
orchestrator appends exactly one assistant message carrying the tool-call
reference and then exactly one tool-result message carrying the serialized
ToolResult, in that order, before issuing the next remote call; and in
every reachable conversation history each tool-result message is preceded
earlier by an assistant message whose tool call names the same tool. -/
theorem C4_toolcall_append_order :
    (∀ (parseJson : String → Except String Args)
       (impls : String → Option (Args → Except String ToolResult))
       (content : Option String) (name : String) (args : RawArgs)
       (rest : List RemoteOutcome) (messages : List Message)
       (toolResult : ToolResult),
      processToolCall parseJson impls ⟨name, args⟩ = Except.ok toolResult →
      runTurn parseJson impls
          (RemoteOutcome.reply (Response.toolCall content name args) :: rest)
          messages =
        runTurn parseJson impls rest
          (messages ++
            [Message.assistant content (some name),
             Message.function name (serializeToolResult toolResult)])) ∧
    (∀ messages, Reachable messages → historyInvariant messages = true) := by
  constructor
  · intro parseJson impls content name args rest messages toolResult h
    rw [runTurn, h]
  · exact reachable_invariant

/-- C4 witness: a turn answering with a tool call to an unknown name
appends exactly the assistant tool-call message and the serialized
tool-result message, and the resulting reachable history satisfies the
invariant. -/
theorem C4_toolcall_append_order_witness :
    runTurn jsonParseModel (toolImplsDemo [])
        [RemoteOutcome.reply
          (Response.toolCall none "frobnicate" (RawArgs.structured {}))] [] =
      ([Message.assistant none (some "frobnicate"),
        Message.function "frobnicate"
          (serializeToolResult (ToolResult.error "Unknown tool: frobnicate"))],
       none) ∧
    historyInvariant
      (afterTurn jsonParseModel (toolImplsDemo [])
        [RemoteOutcome.reply
          (Response.toolCall none "frobnicate" (RawArgs.structured {}))]
        [] "hello") = true := by
  constructor
  · rw [C4_toolcall_append_order.1 jsonParseModel (toolImplsDemo []) none
      "frobnicate" (RawArgs.structured {}) [] []
      (ToolResult.error "Unknown tool: frobnicate") (by rfl)]
    rfl
  · exact C4_toolcall_append_order.2 _
      (Reachable.turn [] jsonParseModel (toolImplsDemo [])
        [RemoteOutcome.reply
          (Response.toolCall none "frobnicate" (RawArgs.structured {}))]
        "hello" Reachable.init)

/-- C8 counterexample: the decoder does NOT stop consuming at `[DONE]` (the
loop `continue`s): a frame occurring after the sentinel still contributes
its emission and its text to the accumulated string — here `"B"` follows
the sentinel, yet the emissions are `"A", "B"` and the accumulator is
`"AB"`, where the claim demands `"A"` alone. -/
theorem C8_counterexample :
    decodeChunks
        [renderFrames
          [deltaPre ++ "A".data ++ deltaPost, "[DONE]".data,
           deltaPre ++ "B".data ++ deltaPost]] =
      ["A".data, "B".data] ∧
    fullContent
        [renderFrames
          [deltaPre ++ "A".data ++ deltaPost, "[DONE]".data,
           deltaPre ++ "B".data ++ deltaPost]] = "AB".data := by decide

/-- C8 (amended): the `[DONE]` sentinel frame itself is skipped without
error and contributes no emission and no text, but the decoder keeps
consuming: frames before and after the sentinel are processed exactly as
they would be without it. -/
theorem C8_done_skipped_not_stop :
    ∀ (ps1 ps2 : List (List Char)),
      (∀ p ∈ ps1, wfPayload p) → (∀ p ∈ ps2, wfPayload p) →
      decodeChunk (renderFrames (ps1 ++ "[DONE]".data :: ps2)) =
        ps1.filterMap payloadStep ++ ps2.filterMap payloadStep := by
  intro ps1 ps2 h1 h2
  have hwf : ∀ p ∈ ps1 ++ "[DONE]".data :: ps2, wfPayload p := by
    intro p hp
    rcases List.mem_append.mp hp with h | h
    · exact h1 p h
    · rcases List.mem_cons.mp h with h | h
      · subst h
        exact ⟨by decide, by decide⟩
      · exact h2 p h
  have hd : payloadStep "[DONE]".data = none := by rfl
  rw [decodeChunk_renderFrames _ hwf, List.filterMap_append,
    List.filterMap_cons, hd]

/-- C8 witness: with one well-formed frame on each side of the sentinel,
the chunk decodes to both contents, the sentinel contributing nothing. -/
theorem C8_done_skipped_not_stop_witness :
    decodeChunk
        (renderFrames
          [deltaPre ++ "A".data ++ deltaPost, "[DONE]".data,
           deltaPre ++ "B".data ++ deltaPost]) =
      ["A".data, "B".data] :=
  (C8_done_skipped_not_stop [deltaPre ++ "A".data ++ deltaPost]
    [deltaPre ++ "B".data ++ deltaPost] (by decide) (by decide)).trans
    (by decide)

/-- C9 counterexample: when the health probe answers with
`api_initialized: false`, `startCLI` does NOT refuse to start — it prints
the two credential diagnostics and proceeds into the interactive session. -/
theorem C9_counterexample :
    startupCheck (Except.ok false) = StartOutcome.interactive credentialWarnings ∧
    StartOutcome.interactive credentialWarnings ≠ StartOutcome.exited 1 := by
  decide

/-- C9 (amended): an `api_initialized: false` probe answer surfaces
diagnostics pointing at the missing `GEMINI_API_KEY` credentials but the
interactive session still starts; a failing health probe (unreachable proxy
at launch) terminates the process with the non-zero exit status 1. -/
theorem C9_startup_check :
    (∀ e, startupCheck (Except.error e) = StartOutcome.exited 1) ∧
    startupCheck (Except.ok false) = StartOutcome.interactive credentialWarnings ∧
    startupCheck (Except.ok true) = StartOutcome.interactive [] :=
  ⟨fun _ => rfl, rfl, rfl⟩

/-- C9 witness: an unreachable proxy at launch exits with status 1. -/
theorem C9_startup_check_witness :
    startupCheck (Except.error "connect ECONNREFUSED") = StartOutcome.exited 1 :=
  C9_startup_check.1 "connect ECONNREFUSED"

/-- C10: turn abort on transport error is not atomic with respect to
history: when the remote call issued after a successful tool dispatch
fails, the turn returns no terminal assistant message (`none`), yet the
assistant tool-call message and the tool-result message appended earlier in
the same turn remain in the conversation history. -/
theorem C10_turn_abort_not_atomic :
    ∀ (parseJson : String → Except String Args)
      (impls : String → Option (Args → Except String ToolResult))
      (content : Option String) (name : String) (args : RawArgs)
      (rest : List RemoteOutcome) (history : List Message) (input : String)
      (toolResult : ToolResult),
      processToolCall parseJson impls ⟨name, args⟩ = Except.ok toolResult →
      runTurn parseJson impls
          (RemoteOutcome.reply (Response.toolCall content name args) ::
            RemoteOutcome.failure :: rest)
          (history ++ [Message.user input]) =
        ((history ++ [Message.user input]) ++
          [Message.assistant content (some name),
           Message.function name (serializeToolResult toolResult)], none) ∧
      afterTurn parseJson impls
          (RemoteOutcome.reply (Response.toolCall content name args) ::
            RemoteOutcome.failure :: rest)
          history input =
        history ++
          [Message.user input, Message.assistant content (some name),
           Message.function name (serializeToolResult toolResult)] := by
  intro parseJson impls content name args rest history input toolResult h
  have h1 : runTurn parseJson impls
      (RemoteOutcome.reply (Response.toolCall content name args) ::
        RemoteOutcome.failure :: rest)
      (history ++ [Message.user input]) =
      ((history ++ [Message.user input]) ++
        [Message.assistant content (some name),
         Message.function name (serializeToolResult toolResult)], none) := by
    rw [runTurn, h]
    rfl
  refine ⟨h1, ?_⟩
  rw [afterTurn, h1]
  simp [List.append_assoc]

/-- C10 witness: a concrete aborted turn retains the user message, the
assistant tool-call message and the tool-result message in the history,
with no terminal assistant message. -/
theorem C10_turn_abort_not_atomic_witness :
    afterTurn jsonParseModel (toolImplsDemo [])
        [RemoteOutcome.reply
          (Response.toolCall none "frobnicate" (RawArgs.structured {})),
         RemoteOutcome.failure] [] "hi" =
      [Message.user "hi", Message.assistant none (some "frobnicate"),
       Message.function "frobnicate"
         (serializeToolResult (ToolResult.error "Unknown tool: frobnicate"))] :=
  (C10_turn_abort_not_atomic jsonParseModel (toolImplsDemo []) none
    "frobnicate" (RawArgs.structured {}) [] [] "hi"
    (ToolResult.error "Unknown tool: frobnicate") (by rfl)).2

end GeminiCli
